import Mathlib

/-!
Verification of the Kodi ASIO audio sink (xbmc/cores/AudioEngine/Sinks/AESinkASIO.cpp/.h).

The sink is embedded shallowly: machine integers become Nat/Int with explicit
wrap-around arithmetic where the source relies on it, IEEE float samples are
modelled by their exact rational value (every float/double sample value is a
rational, and the only arithmetic the source performs on host samples is a
multiplication by a power of two, which is exact in IEEE arithmetic, followed
by llround, which is exact rounding of that product), and the driver (IASIO)
is modelled as an oracle record of the results of its capability queries.

The AERingBuffer staging queue is code of the repository that is not part of
the provided sources; it is modelled from the spec's StagingQueue contract
(a bounded per-plane byte queue with a single shared fill count, FIFO reads,
writes truncated to the available space).
-/

namespace AESinkAsio

/-- The ASIO native sample type tags used by the sink (ASIOSampleType in the
driver header). The extra constructor `unknownType` stands for any integer
code outside the enumeration, in particular the -1 the sink stores in
m_sampleType before negotiation; every switch in the source takes its
default branch on such a code. -/
inductive SampleType where
  | STInt16MSB | STInt24MSB | STInt32MSB | STFloat32MSB | STFloat64MSB
  | STInt32MSB16 | STInt32MSB18 | STInt32MSB20 | STInt32MSB24
  | STInt16LSB | STInt24LSB | STInt32LSB | STFloat32LSB | STFloat64LSB
  | STInt32LSB16 | STInt32LSB18 | STInt32LSB20 | STInt32LSB24
  | STDSDInt8LSB1 | STDSDInt8MSB1 | STDSDInt8NER8
  | unknownType
  deriving DecidableEq

/-- CAESinkASIO::GetASIOSampleSizeInBits (AESinkASIO.cpp, lines 333-366). -/
def GetASIOSampleSizeInBits : SampleType → Nat
  | .STDSDInt8MSB1 | .STDSDInt8LSB1 => 1
  | .STDSDInt8NER8 => 8
  | .STInt16MSB | .STInt16LSB => 16
  | .STInt24MSB | .STInt24LSB => 24
  | .STInt32MSB | .STInt32MSB16 | .STInt32MSB18 | .STInt32MSB20 | .STInt32MSB24
  | .STInt32LSB | .STInt32LSB16 | .STInt32LSB18 | .STInt32LSB20 | .STInt32LSB24
  | .STFloat32MSB | .STFloat32LSB => 32
  | .STFloat64MSB | .STFloat64LSB => 64
  | .unknownType => 0

/-- Native sample byte size, ceil(bits/8), as computed in Initialize:
m_sampleSize = (GetASIOSampleSizeInBits(m_sampleType) + 7) / 8. -/
def sampleBytes (t : SampleType) : Nat := (GetASIOSampleSizeInBits t + 7) / 8

/-- AESinkASIO.h line 27. -/
def DSD_MIN_SAMPLERATE : Nat := 2822400

/-- AESinkASIO.h line 28: the fixed non-zero DSD silence byte 0x69. -/
def DSD_SILENCE_BYTE : Nat := 0x69

/-- The host sample representations (AEDataFormat values) the sink deals
with; only the constructors appearing in the sink's switches are listed. -/
inductive AEDataFormat where
  | U8 | S16LE | S16BE | S24BE3 | S24LE3 | S32LE | S32BE
  | FLOAT | DOUBLE | RAW | INVALID
  deriving DecidableEq

/-- Modelled from the spec: CAEUtil::DataFormatToBits (AEUtil, an external
helper not among the provided sources) returns the bit width of the host
sample representation. -/
def DataFormatToBits : AEDataFormat → Nat
  | .U8 => 8
  | .S16LE | .S16BE => 16
  | .S24BE3 | .S24LE3 => 24
  | .S32LE | .S32BE => 32
  | .FLOAT => 32
  | .DOUBLE => 64
  | .RAW => 8
  | .INVALID => 0

/-- The AEAudioFormat fields the sink reads and writes. -/
structure AEFormat where
  sampleRate : Nat
  channelCount : Nat
  dataFormat : AEDataFormat
  frameSize : Nat
  frames : Nat
  deriving DecidableEq

/-- Model of std::llround: round to the nearest integer, ties away from
zero (the semantics of llround in the default rounding mode). -/
def llround (q : ℚ) : Int :=
  if 0 ≤ q then ⌊q + 1 / 2⌋ else -⌊-q + 1 / 2⌋

/-- Evaluation rule for llround on nonnegative arguments. -/
theorem llround_of_nonneg (q : ℚ) (z : Int) (h0 : 0 ≤ q) (h1 : (z : ℚ) ≤ q + 1 / 2)
    (h2 : q + 1 / 2 < z + 1) : llround q = z := by
  unfold llround
  rw [if_pos h0]
  exact Int.floor_eq_iff.mpr ⟨h1, h2⟩

/-- ConvertRealToInt<real_t, int_t> (AESinkASIO.cpp, lines 418-436).
`w` is the bit width of int_t (16 for short, 32 for int); the scale
constant is 1ul << (w - 1), and min_value/max_value are the bounds of the
signed w-bit range. The host sample is its exact rational value: the
source multiplies it by a power of two (exact in IEEE arithmetic) and
rounds with llround, so the rational computation is byte-faithful. -/
def ConvertRealToInt (w : Nat) (x : ℚ) : Int :=
  let scale : ℚ := 2 ^ (w - 1)
  let min_value : Int := -(2 ^ (w - 1))
  let max_value : Int := 2 ^ (w - 1) - 1
  let int_value := llround (x * scale)
  if int_value < min_value then min_value
  else if int_value < max_value then int_value
  else max_value

/-- Byte i (0 = least significant) of the 32-bit two's-complement
representation of v, as laid out in memory on the little-endian host. -/
def byteAt (v : Int) (i : Nat) : Nat := ((v % 2 ^ 32).toNat >>> (8 * i)) % 256

/-- The first `width` bytes of the little-endian two's-complement layout
of v (the memory image of a width-byte integer store on the host). -/
def bytesLE (width : Nat) (v : Int) : List Nat := (List.range width).map (byteAt v)

/-- Writing the byte string `bs` at the start of the destination region
`dest`, leaving the bytes past `bs` untouched. -/
def writeBytes (bs dest : List Nat) : List Nat := bs ++ dest.drop bs.length

/-- The bit-level IEEE-754 encodings used by the float-to-float branches of
ConvertSample (the little-endian memory images of a float32/float64 store,
including the narrowing in the double-to-float32 branch). Their byte content
depends on the IEEE bit layout, which is not modelled; the development is
parameterized over arbitrary encoders of the correct length. None of the
claims constrains these bytes. -/
structure FloatCodec where
  enc32 : ℚ → List Nat
  enc64 : ℚ → List Nat
  enc32_length : ∀ x, (enc32 x).length = 4
  enc64_length : ∀ x, (enc64 x).length = 8

/-- A concrete codec used to instantiate witnesses (the claims never look
at the bytes it produces). -/
def codec0 : FloatCodec where
  enc32 := fun _ => List.replicate 4 0
  enc64 := fun _ => List.replicate 8 0
  enc32_length := fun _ => rfl
  enc64_length := fun _ => rfl

/-- One host-format sample together with its value. The constructor plays
the role of the inpType switch discriminant in ConvertSample: the sink is
fed buffers whose sample representation matches format.m_dataFormat, so a
U8 buffer holds u8 samples, a FLOAT buffer f32 samples, a DOUBLE buffer
f64 samples. Float and double values are carried as their exact rational
value. -/
inductive HostSample where
  | u8 (b : Nat)
  | f32 (x : ℚ)
  | f64 (x : ℚ)

/-- The inner switch of CAESinkASIO::ConvertSample for a real-valued host
sample (AESinkASIO.cpp, lines 444-518 for AE_FMT_FLOAT and 520-594 for
AE_FMT_DOUBLE; the two switches compute the same function of the exact
sample value, ConvertRealToInt<float,T> and ConvertRealToInt<double,T>
agreeing on the exact product, so they share this definition).
Byte layouts: a plain store on the little-endian host lays down bytesLE;
a store after _byteswap reverses them. The 24-bit cases copy bytes 3,2,1
(MSB) resp. 1,2,3 (LSB) of the 32-bit value. Native types without a case
in the switch (the DSD types, or an unknown code) write nothing. -/
def convertReal (codec : FloatCodec) (dest : List Nat) (outType : SampleType) (x : ℚ) :
    List Nat :=
  match outType with
  | .STInt16MSB => writeBytes (bytesLE 2 (ConvertRealToInt 16 x)).reverse dest
  | .STInt16LSB => writeBytes (bytesLE 2 (ConvertRealToInt 16 x)) dest
  | .STInt24MSB =>
      writeBytes [byteAt (ConvertRealToInt 32 x) 3, byteAt (ConvertRealToInt 32 x) 2,
        byteAt (ConvertRealToInt 32 x) 1] dest
  | .STInt24LSB =>
      writeBytes [byteAt (ConvertRealToInt 32 x) 1, byteAt (ConvertRealToInt 32 x) 2,
        byteAt (ConvertRealToInt 32 x) 3] dest
  | .STInt32MSB | .STInt32MSB16 | .STInt32MSB18 | .STInt32MSB20 | .STInt32MSB24 =>
      writeBytes (bytesLE 4 (ConvertRealToInt 32 x)).reverse dest
  | .STInt32LSB | .STInt32LSB16 | .STInt32LSB18 | .STInt32LSB20 | .STInt32LSB24 =>
      writeBytes (bytesLE 4 (ConvertRealToInt 32 x)) dest
  | .STFloat32MSB => writeBytes (codec.enc32 x).reverse dest
  | .STFloat32LSB => writeBytes (codec.enc32 x) dest
  | .STFloat64MSB => writeBytes (codec.enc64 x).reverse dest
  | .STFloat64LSB => writeBytes (codec.enc64 x) dest
  | _ => dest

/-- CAESinkASIO::ConvertSample (AESinkASIO.cpp, lines 438-597). The outer
switch on the host format: AE_FMT_U8 is `break` (nothing is written, the
destination region keeps its previous bytes); AE_FMT_FLOAT and
AE_FMT_DOUBLE dispatch on the native type; any other host format has no
case and writes nothing. -/
def ConvertSample (codec : FloatCodec) (dest : List Nat) (outType : SampleType)
    (inp : HostSample) : List Nat :=
  match inp with
  | .u8 _ => dest
  | .f32 x => convertReal codec dest outType x
  | .f64 x => convertReal codec dest outType x

/-- CAESinkASIO::ConvertSamples (AESinkASIO.cpp, lines 599-607): for each
sample index below `samples`, convert the interleaved host sample at index
sample * channels + channel into the output slot of `outSampleSize` bytes
at offset sample * outSampleSize of the pad. (The byte-level stride
arithmetic of the source becomes sample-level indexing here.) -/
def ConvertSamples (codec : FloatCodec) (pad : List Nat) (outType : SampleType)
    (outSampleSize : Nat) (inp : List HostSample) (channel channels : Nat) :
    Nat → List Nat
  | 0 => pad
  | n + 1 =>
      let prev := ConvertSamples codec pad outType outSampleSize inp channel channels n
      let slot := (prev.drop (n * outSampleSize)).take outSampleSize
      let written := ConvertSample codec slot outType (inp.getD (n * channels + channel) (.u8 0))
      prev.take (n * outSampleSize) ++ written ++ prev.drop (n * outSampleSize + outSampleSize)

/-- CAESinkASIO::ZeroSamples (AESinkASIO.cpp, lines 609-625): the silence
fill. For the two 1-bit DSD types, memset of `samples` bytes with the
constant DSD_SILENCE_BYTE; for the packed NER8 type, byte i carries the
single bit (0x69 >> (7 - i % 8)) & 1; for every other native type, all
zero bytes over samples * outSampleSize. -/
def ZeroSamples (outType : SampleType) (outSampleSize samples : Nat) : List Nat :=
  match outType with
  | .STDSDInt8MSB1 | .STDSDInt8LSB1 => List.replicate samples DSD_SILENCE_BYTE
  | .STDSDInt8NER8 =>
      (List.range samples).map fun sample => (DSD_SILENCE_BYTE >>> (7 - sample % 8)) &&& 1
  | _ => List.replicate (samples * outSampleSize) 0

/-- Modelled from the spec: AERingBuffer, the StagingQueue backing
m_planeBuffer. Its storage implementation is an external collaborator (not
among the provided sources); the spec specifies it as a bounded per-plane
byte queue (capacity fixed at construction, one shared fill count so all
planes hold equally many readable bytes, FIFO reads, writes truncated to
the available space). Each plane is a list of bytes, oldest first. -/
structure StagingQueue where
  maxSize : Nat
  planes : List (List Nat)
  deriving DecidableEq

/-- AERingBuffer::NumPlanes. -/
def StagingQueue.numPlanes (q : StagingQueue) : Nat := q.planes.length

/-- Modelled from the spec: AERingBuffer::GetReadSize, the shared count of
readable bytes per plane. All mutations keep the planes at equal length
(the Balanced invariant below), so the count is read off the first plane. -/
def StagingQueue.readSize (q : StagingQueue) : Nat := (q.planes.headD []).length

/-- AERingBuffer::GetWriteSize, the writable space per plane. -/
def StagingQueue.writeSize (q : StagingQueue) : Nat := q.maxSize - q.readSize

/-- AERingBuffer::GetMaxSize, the fixed per-plane capacity. -/
def StagingQueue.getMaxSize (q : StagingQueue) : Nat := q.maxSize

/-- Replace plane i of the plane list by f applied to it. -/
def modifyPlane : List (List Nat) → Nat → (List Nat → List Nat) → List (List Nat)
  | [], _, _ => []
  | p :: ps, 0, f => f p :: ps
  | p :: ps, i + 1, f => p :: modifyPlane ps i f

/-- Modelled from the spec: AERingBuffer::Write of a byte string into one
plane, truncated to the available space of that plane. -/
def StagingQueue.write (q : StagingQueue) (plane : Nat) (bs : List Nat) : StagingQueue :=
  { q with planes := modifyPlane q.planes plane (fun p => p ++ bs.take (q.maxSize - p.length)) }

/-- All planes hold exactly readSize readable bytes: the shared-fill-count
invariant of the staging queue. -/
def Balanced (q : StagingQueue) : Prop := ∀ p ∈ q.planes, p.length = q.readSize

instance (q : StagingQueue) : Decidable (Balanced q) := by
  unfold Balanced; infer_instance

/-- The driver-side oracle: the outcome of every IASIO call Initialize
makes, in source order (CoInitialize, Load, future(kAsioSetIoFormat),
canSampleRate, setSampleRate, getChannels, getBufferSize, getChannelInfo,
createBuffers, start) plus the result of m_planeBuffer.Create. -/
structure Driver where
  coInitOk : Bool
  loadOk : Bool
  setIoFormatOk : Bool
  canSampleRateOk : Bool
  setSampleRateOk : Bool
  getChannelsOk : Bool
  numOutputChannels : Nat
  getBufferSizeOk : Bool
  preferredSize : Nat
  getChannelInfoOk : Bool
  channelType : SampleType
  createBuffersOk : Bool
  queueCreateOk : Bool
  startOk : Bool
  deriving DecidableEq

/-- The session fields of CAESinkASIO (AESinkASIO.h, lines 67-81).
sThisSet models the process-wide callback target s_this being bound to
this instance; planePad is the reused m_planePad conversion scratch
buffer. m_iasio and m_bufferInfos carry no verified state and are not
modelled. -/
structure SinkState where
  initialized : Bool
  running : Bool
  planeCount : Nat
  sampleType : SampleType
  sampleSize : Nat
  bufferSize : Nat
  frameSize : Nat
  frameCount : Nat
  planeBytesPerSec : Nat
  sThisSet : Bool
  format : AEFormat
  planePad : List Nat
  planeBuffer : StagingQueue
  deriving DecidableEq

/-- The state of a default-constructed sink (CAESinkASIO::CAESinkASIO,
AESinkASIO.cpp lines 65-77): m_sampleType = -1 becomes unknownType. -/
def initialState : SinkState where
  initialized := false
  running := false
  planeCount := 0
  sampleType := .unknownType
  sampleSize := 0
  bufferSize := 0
  frameSize := 0
  frameCount := 0
  planeBytesPerSec := 0
  sThisSet := false
  format := ⟨0, 0, .INVALID, 0, 0⟩
  planePad := []
  planeBuffer := ⟨0, []⟩

/-- The tail of CAESinkASIO::Initialize from the canSampleRate query
onward (AESinkASIO.cpp, lines 117-160), following the source statement by
statement. Each driver query that fails returns false at exactly the
point the source does, so the fields assigned before that point keep
their new values in the returned state. (m_bufferInfos, resized just
before createBuffers, carries no verified state and is omitted.) -/
def initFromRateCheck (st : SinkState) (format : AEFormat) (drv : Driver) :
    Bool × SinkState × AEFormat :=
  if drv.canSampleRateOk = false then (false, st, format)
  else if drv.setSampleRateOk = false then (false, st, format)
  else if drv.getChannelsOk = false then (false, st, format)
  else
    let st := { st with planeCount := drv.numOutputChannels }
    if drv.getBufferSizeOk = false then (false, st, format)
    else
      let st := { st with bufferSize := drv.preferredSize }
      if drv.getChannelInfoOk = false then (false, st, format)
      else
        let st := { st with
          sampleType := drv.channelType
          sampleSize := (GetASIOSampleSizeInBits drv.channelType + 7) / 8
          sThisSet := true }
        if drv.createBuffersOk = false then (false, st, format)
        else
          let fs := format.channelCount * (DataFormatToBits format.dataFormat / 8)
          let fc := format.sampleRate /
            (if DSD_MIN_SAMPLERATE ≤ format.sampleRate then 8 else 1) / 75
          let format := { format with frameSize := fs, frames := fc }
          let st := { st with
            frameSize := fs
            frameCount := fc
            planeBytesPerSec := format.sampleRate * GetASIOSampleSizeInBits drv.channelType }
          let frameBytes := st.planeBytesPerSec / 75
          if drv.queueCreateOk = false then (false, st, format)
          else
            let st := { st with
              planeBuffer :=
                ⟨frameBytes * 3 * 75, List.replicate st.planeCount ([] : List Nat)⟩
              format := format
              initialized := true }
            if drv.startOk = false then (false, st, format)
            else (true, { st with running := true }, format)

/-- CAESinkASIO::Initialize (AESinkASIO.cpp, lines 101-161): the
m_initialized / CoInitialize / Load guards, the DSD I/O-format switch for
sample rates at or above the DSD threshold, then the rate check and the
rest of the handshake (initFromRateCheck). Returns (result, new sink
state, mutated format). -/
def InitializeSink (st : SinkState) (format : AEFormat) (drv : Driver) :
    Bool × SinkState × AEFormat :=
  if st.initialized then (false, st, format)
  else if drv.coInitOk = false then (false, st, format)
  else if drv.loadOk = false then (false, st, format)
  else if DSD_MIN_SAMPLERATE ≤ format.sampleRate then
    if drv.setIoFormatOk = false then (false, st, format)
    else initFromRateCheck st format drv
  else initFromRateCheck st format drv

/-- The plane-conversion loop of AddPackets (AESinkASIO.cpp, lines
191-195): for plane = 0 .. count-1, convert the plane's interleaved host
samples into the pad, then write framesToConsume * sampleSize pad bytes
into that plane of the staging queue. The pad is threaded through,
matching the reuse of m_planePad. -/
def convertWriteLoop (codec : FloatCodec) (outType : SampleType) (outSampleSize : Nat)
    (inp : List HostSample) (channels samples : Nat) :
    Nat → StagingQueue × List Nat → StagingQueue × List Nat
  | 0, acc => acc
  | k + 1, acc =>
      let acc' := convertWriteLoop codec outType outSampleSize inp channels samples k acc
      let pad' := ConvertSamples codec acc'.2 outType outSampleSize inp k channels samples
      (acc'.1.write k (pad'.take (samples * outSampleSize)), pad')

/-- The silence-padding loop of AddPackets (AESinkASIO.cpp, lines
196-201): write the same pad bytes into each of the `count` planes
starting at plane `start`. -/
def zeroWriteLoop (pad : List Nat) (len start : Nat) : Nat → StagingQueue → StagingQueue
  | 0, q => q
  | k + 1, q => (zeroWriteLoop pad len start k q).write (start + k) (pad.take len)

/-- m_planePad.resize(n): keep the first n bytes, zero-extend to length n. -/
def resizePad (pad : List Nat) (n : Nat) : List Nat :=
  pad.take n ++ List.replicate (n - pad.length) 0

/-- The body of AddPackets past the m_initialized guard (AESinkASIO.cpp,
lines 186-202). -/
def addPacketsCore (codec : FloatCodec) (st : SinkState) (data : List HostSample)
    (frames offset : Nat) : SinkState × Nat :=
  let frameChannels := st.format.channelCount
  let dataPtr := data.drop (offset * frameChannels)
  let planesToConsume := min st.planeBuffer.numPlanes frameChannels
  let framesToConsume := min frames (st.planeBuffer.writeSize / st.sampleSize)
  let padLen := framesToConsume * st.sampleSize
  let pad0 := resizePad st.planePad padLen
  let r := convertWriteLoop codec st.sampleType st.sampleSize dataPtr frameChannels
    framesToConsume planesToConsume (st.planeBuffer, pad0)
  if planesToConsume < st.planeBuffer.numPlanes then
    let pad2 := writeBytes (ZeroSamples st.sampleType st.sampleSize framesToConsume) r.2
    let q2 := zeroWriteLoop pad2 padLen planesToConsume
      (st.planeBuffer.numPlanes - planesToConsume) r.1
    ({ st with planeBuffer := q2, planePad := pad2 }, framesToConsume)
  else
    ({ st with planeBuffer := r.1, planePad := r.2 }, framesToConsume)

/-- CAESinkASIO::AddPackets (AESinkASIO.cpp, lines 181-203). The host
buffer is the flat interleaved sample list `data`; the byte offset
offset * m_frameSize of the source is the sample offset
offset * channelCount here. Returns the new state and framesToConsume. -/
def AddPackets (codec : FloatCodec) (st : SinkState) (data : List HostSample)
    (frames offset : Nat) : SinkState × Nat :=
  if st.initialized = false then (st, 0)
  else addPacketsCore codec st data frames offset

/-- CAESinkASIO::bufferSwitch (AESinkASIO.cpp, lines 669-685). If one
buffer half's worth of bytes (m_bufferSize * m_sampleSize) is readable,
each plane's loop iteration reads exactly that many bytes FIFO into the
plane's current buffer half (take) and consumes them from the queue
(drop); otherwise every plane's buffer half is filled with the
ZeroSamples silence pattern and the queue is left untouched. Returns the
new state and the per-plane buffer-half contents written. -/
def bufferSwitch (st : SinkState) : SinkState × List (List Nat) :=
  let n := st.bufferSize * st.sampleSize
  if n ≤ st.planeBuffer.readSize then
    ({ st with planeBuffer := { st.planeBuffer with
        planes := st.planeBuffer.planes.map (List.drop n) } },
     st.planeBuffer.planes.map (List.take n))
  else
    (st, st.planeBuffer.planes.map fun _ => ZeroSamples st.sampleType st.sampleSize st.bufferSize)

/-- CAESinkASIO::GetDelay (AESinkASIO.cpp, lines 225-233): readable bytes
divided by m_planeBytesPerSec, 0 when not initialized. The double
arithmetic of the source is modelled exactly over ℚ. -/
def GetDelay (st : SinkState) : ℚ :=
  if st.initialized then (st.planeBuffer.readSize : ℚ) / (st.planeBytesPerSec : ℚ) else 0

/-- CAESinkASIO::GetCacheTotal (AESinkASIO.cpp, lines 235-238). -/
def GetCacheTotal (st : SinkState) : ℚ :=
  (st.planeBuffer.getMaxSize : ℚ) / (st.planeBytesPerSec : ℚ)

/-- A steady-state producer/consumer event: one AddPackets call or one
driver callback invocation. -/
inductive SinkOp where
  | add (data : List HostSample) (frames offset : Nat)
  | callback

/-- Run one event against the sink state. -/
def runOp (codec : FloatCodec) (st : SinkState) : SinkOp → SinkState
  | .add data frames offset => (AddPackets codec st data frames offset).1
  | .callback => (bufferSwitch st).1

/-- Run a sequence of events against the sink state. -/
def runOps (codec : FloatCodec) (st : SinkState) : List SinkOp → SinkState
  | [] => st
  | op :: ops => runOps codec (runOp codec st op) ops

/-! ### Length bookkeeping lemmas -/

theorem writeBytes_length (bs dest : List Nat) (h : bs.length ≤ dest.length) :
    (writeBytes bs dest).length = dest.length := by
  simp only [writeBytes, List.length_append, List.length_drop]
  omega

theorem bytesLE_length (w : Nat) (v : Int) : (bytesLE w v).length = w := by
  simp [bytesLE]

theorem convertReal_length (codec : FloatCodec) (dest : List Nat) (t : SampleType) (x : ℚ)
    (h : dest.length = sampleBytes t) :
    (convertReal codec dest t x).length = dest.length := by
  cases t <;>
    simp only [convertReal] <;>
    first
      | rfl
      | (apply writeBytes_length
         simp only [List.length_reverse, bytesLE_length, List.length_cons, List.length_nil,
           codec.enc32_length, codec.enc64_length]
         simp [sampleBytes, GetASIOSampleSizeInBits] at h
         omega)

theorem convertSample_length (codec : FloatCodec) (dest : List Nat) (t : SampleType)
    (inp : HostSample) (h : dest.length = sampleBytes t) :
    (ConvertSample codec dest t inp).length = dest.length := by
  cases inp <;> simp only [ConvertSample] <;>
    first
      | rfl
      | exact convertReal_length codec dest t _ h

theorem convertSamples_length (codec : FloatCodec) (pad : List Nat) (t : SampleType)
    (sz : Nat) (inp : List HostSample) (ch chs : Nat) (hsz : sz = sampleBytes t) :
    ∀ n, n * sz ≤ pad.length →
      (ConvertSamples codec pad t sz inp ch chs n).length = pad.length := by
  intro n
  induction n with
  | zero => intro _; rfl
  | succ k ih =>
    intro h
    have hmul : (k + 1) * sz = k * sz + sz := Nat.succ_mul k sz
    have hk : k * sz ≤ pad.length := by omega
    have hprev := ih hk
    have hslot :
        (((ConvertSamples codec pad t sz inp ch chs k).drop (k * sz)).take sz).length = sz := by
      simp only [List.length_take, List.length_drop, hprev]
      omega
    have hw :
        (ConvertSample codec
            (((ConvertSamples codec pad t sz inp ch chs k).drop (k * sz)).take sz) t
            (inp.getD (k * chs + ch) (.u8 0))).length = sz := by
      rw [convertSample_length codec _ t _ (by rw [hslot, hsz])]
      exact hslot
    simp only [ConvertSamples, List.length_append, List.length_take, List.length_drop,
      hprev, hw]
    omega

theorem zeroSamples_length (t : SampleType) (sz c : Nat) (hsz : sz = sampleBytes t) :
    (ZeroSamples t sz c).length = c * sz := by
  subst hsz
  cases t <;> simp [ZeroSamples, sampleBytes, GetASIOSampleSizeInBits]

theorem resizePad_length (pad : List Nat) (n : Nat) : (resizePad pad n).length = n := by
  simp only [resizePad, List.length_append, List.length_take, List.length_replicate]
  omega

/-! ### Plane-list surgery lemmas -/

theorem modifyPlane_length (ps : List (List Nat)) (i : Nat) (f : List Nat → List Nat) :
    (modifyPlane ps i f).length = ps.length := by
  induction ps generalizing i with
  | nil => rfl
  | cons p ps ih => cases i <;> simp [modifyPlane, ih]

theorem modifyPlane_getD_eq (ps : List (List Nat)) (i : Nat) (f : List Nat → List Nat)
    (h : i < ps.length) :
    (modifyPlane ps i f).getD i [] = f (ps.getD i []) := by
  induction ps generalizing i with
  | nil => simp at h
  | cons p ps ih =>
    cases i with
    | zero => rfl
    | succ i => exact ih i (by simpa using h)

theorem modifyPlane_getD_ne (ps : List (List Nat)) (i j : Nat) (f : List Nat → List Nat)
    (h : j ≠ i) :
    (modifyPlane ps i f).getD j [] = ps.getD j [] := by
  induction ps generalizing i j with
  | nil => simp [modifyPlane]
  | cons p ps ih =>
    cases i with
    | zero =>
      cases j with
      | zero => exact absurd rfl h
      | succ j => rfl
    | succ i =>
      cases j with
      | zero => rfl
      | succ j => exact ih i j (fun hji => h (by rw [hji]))

theorem write_maxSize (q : StagingQueue) (plane : Nat) (bs : List Nat) :
    (q.write plane bs).maxSize = q.maxSize := rfl

theorem write_numPlanes (q : StagingQueue) (plane : Nat) (bs : List Nat) :
    (q.write plane bs).numPlanes = q.numPlanes := by
  simp [StagingQueue.write, StagingQueue.numPlanes, modifyPlane_length]

theorem write_getD_eq (q : StagingQueue) (plane : Nat) (bs : List Nat)
    (h : plane < q.planes.length) :
    (q.write plane bs).planes.getD plane [] =
      q.planes.getD plane [] ++ bs.take (q.maxSize - (q.planes.getD plane []).length) := by
  rw [show (q.write plane bs).planes =
      modifyPlane q.planes plane (fun p => p ++ bs.take (q.maxSize - p.length)) from rfl]
  rw [modifyPlane_getD_eq _ _ _ h]

theorem write_getD_ne (q : StagingQueue) (plane j : Nat) (bs : List Nat) (h : j ≠ plane) :
    (q.write plane bs).planes.getD j [] = q.planes.getD j [] := by
  rw [show (q.write plane bs).planes =
      modifyPlane q.planes plane (fun p => p ++ bs.take (q.maxSize - p.length)) from rfl]
  rw [modifyPlane_getD_ne _ _ _ _ h]

theorem mem_iff_getD {ps : List (List Nat)} {p : List Nat} :
    p ∈ ps ↔ ∃ j, j < ps.length ∧ ps.getD j [] = p := by
  rw [List.mem_iff_getElem]
  constructor
  · rintro ⟨n, hn, rfl⟩
    exact ⟨n, hn, List.getD_eq_getElem _ _ hn⟩
  · rintro ⟨j, hj, h⟩
    exact ⟨j, hj, by rw [← List.getD_eq_getElem _ _ hj, h]⟩

theorem balanced_of_const {q : StagingQueue} {c : Nat} (h : ∀ p ∈ q.planes, p.length = c) :
    Balanced q := by
  intro p hp
  rw [h p hp]
  unfold StagingQueue.readSize
  cases hq : q.planes with
  | nil => rw [hq] at hp; cases hp
  | cons a l =>
    have ha : a ∈ q.planes := by rw [hq]; exact List.mem_cons_self a l
    simp [h a ha]

/-! ### Loop specifications for AddPackets -/

theorem convertWriteLoop_spec (codec : FloatCodec) (t : SampleType) (sz : Nat)
    (inp : List HostSample) (chs samples : Nat) (hsz : sz = sampleBytes t)
    (q : StagingQueue) (pad : List Nat) (hpad : pad.length = samples * sz) :
    ∀ k,
      (convertWriteLoop codec t sz inp chs samples k (q, pad)).2.length = samples * sz ∧
      (convertWriteLoop codec t sz inp chs samples k (q, pad)).1.maxSize = q.maxSize ∧
      (convertWriteLoop codec t sz inp chs samples k (q, pad)).1.planes.length =
        q.planes.length ∧
      (∀ j, k ≤ j →
        (convertWriteLoop codec t sz inp chs samples k (q, pad)).1.planes.getD j [] =
          q.planes.getD j []) ∧
      (∀ j, j < k → j < q.planes.length →
        ((convertWriteLoop codec t sz inp chs samples k (q, pad)).1.planes.getD j []).length =
          (q.planes.getD j []).length +
            min (samples * sz) (q.maxSize - (q.planes.getD j []).length)) := by
  intro k
  induction k with
  | zero => exact ⟨hpad, rfl, rfl, fun j _ => rfl, fun j hj _ => absurd hj (by omega)⟩
  | succ k ih =>
    obtain ⟨ihpad, ihmax, ihlen, ihhigh, ihlow⟩ := ih
    have hpad' :
        (ConvertSamples codec (convertWriteLoop codec t sz inp chs samples k (q, pad)).2 t sz
          inp k chs samples).length = samples * sz := by
      rw [convertSamples_length codec _ t sz inp k chs hsz samples (by rw [ihpad]), ihpad]
    refine ⟨hpad', ?_, ?_, ?_, ?_⟩
    · rw [show (convertWriteLoop codec t sz inp chs samples (k + 1) (q, pad)).1 =
          ((convertWriteLoop codec t sz inp chs samples k (q, pad)).1.write k
            ((ConvertSamples codec (convertWriteLoop codec t sz inp chs samples k (q, pad)).2
              t sz inp k chs samples).take (samples * sz))) from rfl]
      rw [write_maxSize, ihmax]
    · rw [show (convertWriteLoop codec t sz inp chs samples (k + 1) (q, pad)).1 =
          ((convertWriteLoop codec t sz inp chs samples k (q, pad)).1.write k
            ((ConvertSamples codec (convertWriteLoop codec t sz inp chs samples k (q, pad)).2
              t sz inp k chs samples).take (samples * sz))) from rfl]
      have := write_numPlanes (convertWriteLoop codec t sz inp chs samples k (q, pad)).1 k
        ((ConvertSamples codec (convertWriteLoop codec t sz inp chs samples k (q, pad)).2
          t sz inp k chs samples).take (samples * sz))
      simpa [StagingQueue.numPlanes, ihlen] using this
    · intro j hj
      rw [show (convertWriteLoop codec t sz inp chs samples (k + 1) (q, pad)).1 =
          ((convertWriteLoop codec t sz inp chs samples k (q, pad)).1.write k
            ((ConvertSamples codec (convertWriteLoop codec t sz inp chs samples k (q, pad)).2
              t sz inp k chs samples).take (samples * sz))) from rfl]
      rw [write_getD_ne _ _ _ _ (by omega)]
      exact ihhigh j (by omega)
    · intro j hj hjlen
      rw [show (convertWriteLoop codec t sz inp chs samples (k + 1) (q, pad)).1 =
          ((convertWriteLoop codec t sz inp chs samples k (q, pad)).1.write k
            ((ConvertSamples codec (convertWriteLoop codec t sz inp chs samples k (q, pad)).2
              t sz inp k chs samples).take (samples * sz))) from rfl]
      by_cases hjk : j = k
      · subst hjk
        rw [write_getD_eq _ _ _ (by rw [ihlen]; exact hjlen)]
        rw [ihhigh j le_rfl, ihmax]
        simp only [List.length_append, List.length_take, hpad']
        omega
      · rw [write_getD_ne _ _ _ _ hjk]
        exact ihlow j (by omega) hjlen

theorem zeroWriteLoop_spec (pad : List Nat) (len start : Nat) (q : StagingQueue)
    (hlen : len ≤ pad.length) :
    ∀ cnt,
      (zeroWriteLoop pad len start cnt q).maxSize = q.maxSize ∧
      (zeroWriteLoop pad len start cnt q).planes.length = q.planes.length ∧
      (∀ j, j < start ∨ start + cnt ≤ j →
        (zeroWriteLoop pad len start cnt q).planes.getD j [] = q.planes.getD j []) ∧
      (∀ j, start ≤ j → j < start + cnt → j < q.planes.length →
        ((zeroWriteLoop pad len start cnt q).planes.getD j []).length =
          (q.planes.getD j []).length + min len (q.maxSize - (q.planes.getD j []).length)) := by
  intro cnt
  induction cnt with
  | zero => exact ⟨rfl, rfl, fun j _ => rfl, fun j h1 h2 _ => absurd h2 (by omega)⟩
  | succ cnt ih =>
    obtain ⟨ihmax, ihlen, ihout, ihin⟩ := ih
    refine ⟨?_, ?_, ?_, ?_⟩
    · rw [show zeroWriteLoop pad len start (cnt + 1) q =
          (zeroWriteLoop pad len start cnt q).write (start + cnt) (pad.take len) from rfl]
      rw [write_maxSize, ihmax]
    · rw [show zeroWriteLoop pad len start (cnt + 1) q =
          (zeroWriteLoop pad len start cnt q).write (start + cnt) (pad.take len) from rfl]
      have := write_numPlanes (zeroWriteLoop pad len start cnt q) (start + cnt) (pad.take len)
      simpa [StagingQueue.numPlanes, ihlen] using this
    · intro j hj
      rw [show zeroWriteLoop pad len start (cnt + 1) q =
          (zeroWriteLoop pad len start cnt q).write (start + cnt) (pad.take len) from rfl]
      rw [write_getD_ne _ _ _ _ (by omega)]
      exact ihout j (by omega)
    · intro j hj1 hj2 hjlen
      rw [show zeroWriteLoop pad len start (cnt + 1) q =
          (zeroWriteLoop pad len start cnt q).write (start + cnt) (pad.take len) from rfl]
      by_cases hjc : j = start + cnt
      · subst hjc
        rw [write_getD_eq _ _ _ (by rw [ihlen]; exact hjlen)]
        rw [ihout _ (Or.inr le_rfl), ihmax]
        simp only [List.length_append, List.length_take]
        omega
      · rw [write_getD_ne _ _ _ _ hjc]
        exact ihin j hj1 (by omega) hjlen

/-! ### AddPackets and bufferSwitch specifications -/

theorem getD_length_of_balanced {q : StagingQueue} (hbal : Balanced q) {j : Nat}
    (hj : j < q.planes.length) : (q.planes.getD j []).length = q.readSize := by
  apply hbal
  rw [List.getD_eq_getElem _ _ hj]
  exact List.getElem_mem hj

theorem addPackets_eq_core (codec : FloatCodec) (st : SinkState) (data : List HostSample)
    (frames offset : Nat) (hinit : st.initialized = true) :
    AddPackets codec st data frames offset = addPacketsCore codec st data frames offset := by
  unfold AddPackets
  rw [hinit]
  simp

theorem addPacketsCore_spec (codec : FloatCodec) (st : SinkState) (data : List HostSample)
    (frames offset : Nat) (hbal : Balanced st.planeBuffer)
    (hsz : st.sampleSize = sampleBytes st.sampleType) :
    (addPacketsCore codec st data frames offset).2 =
      min frames (st.planeBuffer.writeSize / st.sampleSize) ∧
    (addPacketsCore codec st data frames offset).1.planeBuffer.maxSize =
      st.planeBuffer.maxSize ∧
    (addPacketsCore codec st data frames offset).1.planeBuffer.planes.length =
      st.planeBuffer.planes.length ∧
    ∀ p ∈ (addPacketsCore codec st data frames offset).1.planeBuffer.planes,
      p.length = st.planeBuffer.readSize +
        (min frames (st.planeBuffer.writeSize / st.sampleSize)) * st.sampleSize := by
  set Q := st.planeBuffer with hQ
  set C := st.format.channelCount with hC
  set P := min Q.numPlanes C with hP
  set F := min frames (Q.writeSize / st.sampleSize) with hF
  set L := F * st.sampleSize with hL
  set pad0 := resizePad st.planePad L with hpad0def
  set dataPtr := data.drop (offset * C) with hdp
  have hpad0 : pad0.length = L := resizePad_length _ _
  have hLw : L ≤ Q.maxSize - Q.readSize := by
    have h1 : F ≤ Q.writeSize / st.sampleSize := min_le_right _ _
    have h2 : F * st.sampleSize ≤ (Q.writeSize / st.sampleSize) * st.sampleSize :=
      Nat.mul_le_mul_right _ h1
    have h3 : (Q.writeSize / st.sampleSize) * st.sampleSize ≤ Q.writeSize :=
      Nat.div_mul_le_self _ _
    calc L ≤ Q.writeSize := le_trans h2 h3
      _ = Q.maxSize - Q.readSize := rfl
  have hlenj : ∀ j, j < Q.planes.length → (Q.planes.getD j []).length = Q.readSize :=
    fun j hj => getD_length_of_balanced hbal hj
  obtain ⟨cpad, cmax, clen, chigh, clow⟩ :=
    convertWriteLoop_spec codec st.sampleType st.sampleSize dataPtr C F hsz Q pad0 hpad0 P
  set R := convertWriteLoop codec st.sampleType st.sampleSize dataPtr C F P (Q, pad0) with hR
  have hPle : P ≤ Q.planes.length := min_le_left _ _
  have hcore : addPacketsCore codec st data frames offset =
      if P < Q.numPlanes then
        ({ st with
            planeBuffer := zeroWriteLoop
              (writeBytes (ZeroSamples st.sampleType st.sampleSize F) R.2) L P
              (Q.numPlanes - P) R.1
            planePad := writeBytes (ZeroSamples st.sampleType st.sampleSize F) R.2 }, F)
      else ({ st with planeBuffer := R.1, planePad := R.2 }, F) := rfl
  have hgoal : ∀ j, j < Q.planes.length →
      (((addPacketsCore codec st data frames offset).1.planeBuffer.planes.getD j []).length =
        Q.readSize + L) := by
    intro j hj
    rw [hcore]
    by_cases hlt : P < Q.numPlanes
    · rw [if_pos hlt]
      simp only
      have hz : (ZeroSamples st.sampleType st.sampleSize F).length = L :=
        zeroSamples_length st.sampleType st.sampleSize F hsz
      have hpad2 : (writeBytes (ZeroSamples st.sampleType st.sampleSize F) R.2).length = L := by
        rw [writeBytes_length _ _ (by rw [hz, cpad])]
        exact cpad
      obtain ⟨zmax, zlen, zout, zin⟩ :=
        zeroWriteLoop_spec (writeBytes (ZeroSamples st.sampleType st.sampleSize F) R.2) L P
          R.1 (le_of_eq hpad2.symm) (Q.numPlanes - P)
      by_cases hjP : j < P
      · rw [zout j (Or.inl hjP)]
        rw [clow j hjP hj, hlenj j hj]
        omega
      · have hjge : P ≤ j := le_of_not_lt hjP
        have hjcnt : j < P + (Q.numPlanes - P) := by
          have : Q.numPlanes = Q.planes.length := rfl
          omega
        rw [zin j hjge hjcnt (by rw [clen]; exact hj)]
        rw [chigh j hjge, cmax, hlenj j hj]
        omega
    · rw [if_neg hlt]
      simp only
      have hjP : j < P := by
        have : Q.numPlanes = Q.planes.length := rfl
        omega
      rw [clow j hjP hj, hlenj j hj]
      omega
  have hlenq : (addPacketsCore codec st data frames offset).1.planeBuffer.planes.length =
      Q.planes.length := by
    rw [hcore]
    by_cases hlt : P < Q.numPlanes
    · rw [if_pos hlt]
      simp only
      obtain ⟨zmax, zlen, zout, zin⟩ :=
        zeroWriteLoop_spec (writeBytes (ZeroSamples st.sampleType st.sampleSize F) R.2) L P
          R.1 (by
            rw [writeBytes_length _ _
              (by rw [zeroSamples_length st.sampleType st.sampleSize F hsz, cpad])]
            rw [cpad]) (Q.numPlanes - P)
      rw [zlen, clen]
    · rw [if_neg hlt]
      simp only
      exact clen
  refine ⟨?_, ?_, hlenq, ?_⟩
  · rw [hcore]
    by_cases hlt : P < Q.numPlanes
    · rw [if_pos hlt]
    · rw [if_neg hlt]
  · rw [hcore]
    by_cases hlt : P < Q.numPlanes
    · rw [if_pos hlt]
      simp only
      obtain ⟨zmax, zlen, zout, zin⟩ :=
        zeroWriteLoop_spec (writeBytes (ZeroSamples st.sampleType st.sampleSize F) R.2) L P
          R.1 (by
            rw [writeBytes_length _ _
              (by rw [zeroSamples_length st.sampleType st.sampleSize F hsz, cpad])]
            rw [cpad]) (Q.numPlanes - P)
      rw [zmax, cmax]
    · rw [if_neg hlt]
      simp only
      exact cmax
  · intro p hp
    obtain ⟨j, hj, hpj⟩ := mem_iff_getD.mp hp
    rw [hlenq] at hj
    rw [← hpj, hgoal j hj]

theorem addPacketsCore_shape (codec : FloatCodec) (st : SinkState) (data : List HostSample)
    (frames offset : Nat) :
    ∃ q pad, (addPacketsCore codec st data frames offset).1 =
      { st with planeBuffer := q, planePad := pad } := by
  unfold addPacketsCore
  dsimp only
  split
  · exact ⟨_, _, rfl⟩
  · exact ⟨_, _, rfl⟩

theorem addPackets_fields (codec : FloatCodec) (st : SinkState) (data : List HostSample)
    (frames offset : Nat) :
    (AddPackets codec st data frames offset).1.initialized = st.initialized ∧
    (AddPackets codec st data frames offset).1.running = st.running ∧
    (AddPackets codec st data frames offset).1.planeCount = st.planeCount ∧
    (AddPackets codec st data frames offset).1.sampleType = st.sampleType ∧
    (AddPackets codec st data frames offset).1.sampleSize = st.sampleSize ∧
    (AddPackets codec st data frames offset).1.bufferSize = st.bufferSize ∧
    (AddPackets codec st data frames offset).1.planeBytesPerSec = st.planeBytesPerSec ∧
    (AddPackets codec st data frames offset).1.format = st.format := by
  unfold AddPackets
  split
  · simp
  · obtain ⟨q, pad, h⟩ := addPacketsCore_shape codec st data frames offset
    rw [h]
    simp

theorem addPackets_spec (codec : FloatCodec) (st : SinkState) (data : List HostSample)
    (frames offset : Nat) (hinit : st.initialized = true) (hbal : Balanced st.planeBuffer)
    (hsz : st.sampleSize = sampleBytes st.sampleType) :
    (AddPackets codec st data frames offset).2 =
      min frames (st.planeBuffer.writeSize / st.sampleSize) ∧
    (AddPackets codec st data frames offset).1.planeBuffer.maxSize =
      st.planeBuffer.maxSize ∧
    (AddPackets codec st data frames offset).1.planeBuffer.planes.length =
      st.planeBuffer.planes.length ∧
    ∀ p ∈ (AddPackets codec st data frames offset).1.planeBuffer.planes,
      p.length = st.planeBuffer.readSize +
        (AddPackets codec st data frames offset).2 * st.sampleSize := by
  rw [addPackets_eq_core codec st data frames offset hinit]
  obtain ⟨h1, h2, h3, h4⟩ := addPacketsCore_spec codec st data frames offset hbal hsz
  exact ⟨h1, h2, h3, by rw [h1]; exact h4⟩

theorem addPackets_balanced (codec : FloatCodec) (st : SinkState) (data : List HostSample)
    (frames offset : Nat) (hbal : Balanced st.planeBuffer)
    (hsz : st.sampleSize = sampleBytes st.sampleType) :
    Balanced (AddPackets codec st data frames offset).1.planeBuffer := by
  by_cases hinit : st.initialized = true
  · exact balanced_of_const (addPackets_spec codec st data frames offset hinit hbal hsz).2.2.2
  · have hfalse : st.initialized = false := by
      cases h : st.initialized
      · rfl
      · exact absurd h hinit
    have : AddPackets codec st data frames offset = (st, 0) := by
      unfold AddPackets
      rw [hfalse]
      simp
    rw [this]
    exact hbal

theorem bufferSwitch_fields (st : SinkState) :
    (bufferSwitch st).1.initialized = st.initialized ∧
    (bufferSwitch st).1.sampleType = st.sampleType ∧
    (bufferSwitch st).1.sampleSize = st.sampleSize ∧
    (bufferSwitch st).1.bufferSize = st.bufferSize ∧
    (bufferSwitch st).1.planeBytesPerSec = st.planeBytesPerSec ∧
    (bufferSwitch st).1.format = st.format ∧
    (bufferSwitch st).1.planeBuffer.maxSize = st.planeBuffer.maxSize ∧
    (bufferSwitch st).1.planeBuffer.planes.length = st.planeBuffer.planes.length := by
  unfold bufferSwitch
  dsimp only
  split <;> simp

theorem bufferSwitch_readSize (st : SinkState) :
    (bufferSwitch st).1.planeBuffer.readSize =
      if st.bufferSize * st.sampleSize ≤ st.planeBuffer.readSize
      then st.planeBuffer.readSize - st.bufferSize * st.sampleSize
      else st.planeBuffer.readSize := by
  unfold bufferSwitch
  by_cases h : st.bufferSize * st.sampleSize ≤ st.planeBuffer.readSize
  · rw [if_pos h, if_pos h]
    simp only
    cases hq : st.planeBuffer.planes with
    | nil =>
      have : st.planeBuffer.readSize = 0 := by
        unfold StagingQueue.readSize
        rw [hq]
        rfl
      simp [StagingQueue.readSize, hq, this]
    | cons p ps =>
      have hp : st.planeBuffer.readSize = p.length := by
        unfold StagingQueue.readSize
        rw [hq]
        rfl
      simp [StagingQueue.readSize, hq, hp]
  · rw [if_neg h, if_neg h]

theorem bufferSwitch_balanced (st : SinkState) (hbal : Balanced st.planeBuffer) :
    Balanced (bufferSwitch st).1.planeBuffer := by
  unfold bufferSwitch
  dsimp only
  split
  · simp only
    apply balanced_of_const (c := st.planeBuffer.readSize - st.bufferSize * st.sampleSize)
    intro p hp
    simp only [List.mem_map] at hp
    obtain ⟨p0, hp0, rfl⟩ := hp
    rw [List.length_drop, hbal p0 hp0]
  · exact hbal

theorem runOps_inv (codec : FloatCodec) (ops : List SinkOp) :
    ∀ st : SinkState, Balanced st.planeBuffer → st.sampleSize = sampleBytes st.sampleType →
      Balanced (runOps codec st ops).planeBuffer := by
  induction ops with
  | nil => exact fun st h1 _ => h1
  | cons op ops ih =>
    intro st h1 h2
    apply ih
    · cases op with
      | add data frames offset => exact addPackets_balanced codec st data frames offset h1 h2
      | callback => exact bufferSwitch_balanced st h1
    · cases op with
      | add data frames offset =>
        have hf := addPackets_fields codec st data frames offset
        rw [show runOp codec st (.add data frames offset) =
          (AddPackets codec st data frames offset).1 from rfl]
        rw [hf.2.2.2.2.1, hf.2.2.2.1, h2]
      | callback =>
        have hf := bufferSwitch_fields st
        rw [show runOp codec st .callback = (bufferSwitch st).1 from rfl]
        rw [hf.2.2.1, hf.2.1, h2]

/-! ### Negotiation case analysis -/

theorem initFromRateCheck_fail (st : SinkState) (format : AEFormat) (drv : Driver)
    (hfail : drv.canSampleRateOk = false ∨ drv.getChannelsOk = false ∨
      drv.getBufferSizeOk = false ∨ drv.getChannelInfoOk = false ∨
      drv.queueCreateOk = false) :
    (initFromRateCheck st format drv).1 = false ∧
    (initFromRateCheck st format drv).2.1.initialized = st.initialized := by
  obtain ⟨co, lo, sio, can, ssr, gch, nout, gbs, pref, gci, ctype, cb, qc, so⟩ := drv
  simp only at hfail
  cases can <;> cases ssr <;> cases gch <;> cases gbs <;> cases gci <;> cases cb <;>
    cases qc <;> cases so <;>
    first
      | exact ⟨rfl, rfl⟩
      | (rcases hfail with h | h | h | h | h <;> contradiction)

theorem initFromRateCheck_geometry (st : SinkState) (format : AEFormat) (drv : Driver)
    (h : (initFromRateCheck st format drv).1 = true) :
    (initFromRateCheck st format drv).2.2.frameSize =
      format.channelCount * (DataFormatToBits format.dataFormat / 8) ∧
    (initFromRateCheck st format drv).2.2.frames =
      format.sampleRate / (if DSD_MIN_SAMPLERATE ≤ format.sampleRate then 8 else 1) / 75 := by
  obtain ⟨co, lo, sio, can, ssr, gch, nout, gbs, pref, gci, ctype, cb, qc, so⟩ := drv
  cases can <;> cases ssr <;> cases gch <;> cases gbs <;> cases gci <;> cases cb <;>
    cases qc <;> cases so <;>
    first
      | exact Bool.noConfusion h
      | exact ⟨rfl, rfl⟩

/-! ### Claim C2 -/

/-- Claim C2: for every float32 or float64 host sample converted to a 16-
or 32-bit signed integer native type, the emitted integer value equals the
input scaled by 2^(bits-1), rounded to the nearest integer with ties away
from zero (llround), and clamped to the signed range of the target width;
an input that scales beyond that range yields exactly the minimum or
maximum representable value and never wraps. -/
theorem convertRealToInt_scales_rounds_clamps (w : Nat) (hw : w = 16 ∨ w = 32) (x : ℚ) :
    ConvertRealToInt w x =
      max (-(2 ^ (w - 1))) (min ((2 : Int) ^ (w - 1) - 1) (llround (x * 2 ^ (w - 1)))) ∧
    -(2 ^ (w - 1)) ≤ ConvertRealToInt w x ∧
    ConvertRealToInt w x ≤ (2 : Int) ^ (w - 1) - 1 ∧
    ((2 : Int) ^ (w - 1) - 1 < llround (x * 2 ^ (w - 1)) →
      ConvertRealToInt w x = (2 : Int) ^ (w - 1) - 1) ∧
    (llround (x * 2 ^ (w - 1)) < -(2 ^ (w - 1)) →
      ConvertRealToInt w x = -(2 ^ (w - 1))) := by
  clear hw
  unfold ConvertRealToInt
  dsimp only
  set r := llround (x * 2 ^ (w - 1)) with hr
  set k := (2 : Int) ^ (w - 1) with hkdef
  have hk : (0 : Int) < k := hkdef ▸ pow_pos (by norm_num) _
  have heq : (if r < -k then -k else if r < k - 1 then r else k - 1) =
      max (-k) (min (k - 1) r) := by
    simp only [max_def, min_def]
    split_ifs <;> omega
  rw [heq]
  refine ⟨rfl, ?_, ?_, ?_, ?_⟩
  · simp only [max_def, min_def]
    split_ifs <;> omega
  · simp only [max_def, min_def]
    split_ifs <;> omega
  · intro hcase
    simp only [max_def, min_def]
    split_ifs <;> omega
  · intro hcase
    simp only [max_def, min_def]
    split_ifs <;> omega

theorem c2_witness :
    (16 = 16 ∨ 16 = 32) ∧
    (ConvertRealToInt 16 (3 / 4) =
      max (-(2 ^ (16 - 1)))
        (min ((2 : Int) ^ (16 - 1) - 1) (llround ((3 / 4 : ℚ) * 2 ^ (16 - 1)))) ∧
    -(2 ^ (16 - 1)) ≤ ConvertRealToInt 16 (3 / 4) ∧
    ConvertRealToInt 16 (3 / 4) ≤ (2 : Int) ^ (16 - 1) - 1 ∧
    ((2 : Int) ^ (16 - 1) - 1 < llround ((3 / 4 : ℚ) * 2 ^ (16 - 1)) →
      ConvertRealToInt 16 (3 / 4) = (2 : Int) ^ (16 - 1) - 1) ∧
    (llround ((3 / 4 : ℚ) * 2 ^ (16 - 1)) < -(2 ^ (16 - 1)) →
      ConvertRealToInt 16 (3 / 4) = -(2 ^ (16 - 1)))) :=
  ⟨Or.inl rfl, convertRealToInt_scales_rounds_clamps 16 (Or.inl rfl) (3 / 4)⟩

/-! ### Claim C7 -/

/-- Claim C7: the silence written by ZeroSamples depends on the native
type: for the two 1-bit density (DSD) types every output byte is the fixed
non-zero constant 0x69; for the packed NER8 type output byte i is the
single bit (0x69 >> (7 - i % 8)) & 1; and for every other native type the
output is all-zero bytes covering the full samples * sampleSize range. -/
theorem zeroSamples_pattern (sz c : Nat) :
    ZeroSamples .STDSDInt8MSB1 sz c = List.replicate c DSD_SILENCE_BYTE ∧
    ZeroSamples .STDSDInt8LSB1 sz c = List.replicate c DSD_SILENCE_BYTE ∧
    DSD_SILENCE_BYTE = 0x69 ∧ DSD_SILENCE_BYTE ≠ 0 ∧
    (∀ i, i < c → (ZeroSamples .STDSDInt8NER8 sz c).getD i 0 =
      (DSD_SILENCE_BYTE >>> (7 - i % 8)) &&& 1) ∧
    (∀ t : SampleType, t ≠ .STDSDInt8MSB1 → t ≠ .STDSDInt8LSB1 → t ≠ .STDSDInt8NER8 →
      ZeroSamples t sz c = List.replicate (c * sz) 0) := by
  refine ⟨rfl, rfl, rfl, by decide, ?_, ?_⟩
  · intro i hi
    have hlen : (ZeroSamples .STDSDInt8NER8 sz c).length = c := by
      simp [ZeroSamples]
    rw [List.getD_eq_getElem _ _ (by rw [hlen]; exact hi)]
    simp [ZeroSamples]
  · intro t h1 h2 h3
    cases t <;> simp_all [ZeroSamples]

theorem c7_witness :
    (1 < 3 ∧ (ZeroSamples .STDSDInt8NER8 2 3).getD 1 0 =
      (DSD_SILENCE_BYTE >>> (7 - 1 % 8)) &&& 1) ∧
    ZeroSamples .STInt16LSB 2 3 = List.replicate (3 * 2) 0 :=
  ⟨⟨by decide, (zeroSamples_pattern 2 3).2.2.2.2.1 1 (by decide)⟩,
    (zeroSamples_pattern 2 3).2.2.2.2.2 .STInt16LSB (by decide) (by decide) (by decide)⟩

/-! ### Claim C9 -/

/-- Claim C9 counterexample: an 8-bit unsigned host sample is NOT copied
to the destination. Converting host byte 5 into a destination region
holding byte 7 leaves the destination at 7, not 5: the U8 case of
ConvertSample is a no-op (`break` with no store), so the destination does
not equal the host sample byte. -/
theorem convertSample_u8_not_copied :
    ConvertSample codec0 [7] .STInt16LSB (.u8 5) = [7] ∧
    ConvertSample codec0 [7] .STInt16LSB (.u8 5) ≠ [5] :=
  ⟨rfl, by decide⟩

/-- Claim C9 (amended): for every 8-bit unsigned (U8) host sample,
ConvertSample writes nothing at all: the destination bytes are returned
unchanged (whatever they previously held), for every native type. The
format is assumed compatible by construction; no copy is performed. -/
theorem convertSample_u8_noop (codec : FloatCodec) (dest : List Nat) (t : SampleType)
    (b : Nat) : ConvertSample codec dest t (.u8 b) = dest := rfl

/-! ### Claim C6 -/

/-- The concrete sample value whose rounded 32-bit conversion is
0x12345678, used to separate the four bytes of the 32-bit value. -/
def x24 : ℚ := 305419896 / 2 ^ 31

/-- Claim C6 counterexample: for the float32 sample whose rounded 32-bit
value is 0x12345678, the 24-bit MSB-first path emits [0x12, 0x34, 0x56] -
the HIGH three bytes (bits 8-31) - and not the low three bytes of the
value (neither [0x34, 0x56, 0x78] most-significant-first nor
[0x78, 0x56, 0x34] least-significant-first): the least significant byte
0x78 is dropped, contradicting the claim that the low three bytes are
emitted. -/
theorem convertSample_int24_not_low_bytes :
    ConvertRealToInt 32 x24 = 0x12345678 ∧
    ConvertSample codec0 [0, 0, 0] .STInt24MSB (.f32 x24) = [0x12, 0x34, 0x56] ∧
    ConvertSample codec0 [0, 0, 0] .STInt24MSB (.f32 x24) ≠ [0x34, 0x56, 0x78] ∧
    ConvertSample codec0 [0, 0, 0] .STInt24MSB (.f32 x24) ≠ [0x78, 0x56, 0x34] ∧
    ConvertSample codec0 [0, 0, 0] .STInt24LSB (.f32 x24) = [0x56, 0x34, 0x12] ∧
    ConvertSample codec0 [0, 0, 0] .STInt24LSB (.f32 x24) ≠ [0x78, 0x56, 0x34] := by
  have hll : llround (x24 * 2 ^ (32 - 1)) = 305419896 := by
    have hx : x24 * 2 ^ (32 - 1) = (305419896 : ℚ) := by norm_num [x24]
    rw [hx]
    exact llround_of_nonneg _ _ (by norm_num) (by norm_num) (by norm_num)
  have hval : ConvertRealToInt 32 x24 = 305419896 := by
    unfold ConvertRealToInt
    dsimp only
    rw [hll, if_neg (by norm_num), if_pos (by norm_num)]
  have hmsb : ConvertSample codec0 [0, 0, 0] .STInt24MSB (.f32 x24) = [0x12, 0x34, 0x56] := by
    simp only [ConvertSample, convertReal, hval]
    decide
  have hlsb : ConvertSample codec0 [0, 0, 0] .STInt24LSB (.f32 x24) = [0x56, 0x34, 0x12] := by
    simp only [ConvertSample, convertReal, hval]
    decide
  refine ⟨hval, hmsb, ?_, ?_, hlsb, ?_⟩
  · rw [hmsb]; decide
  · rw [hmsb]; decide
  · rw [hlsb]; decide

/-- Claim C6 (amended): for every float32 or float64 host sample converted
to a 24-bit integer native type, the three emitted bytes are the HIGH
three bytes (bits 8-31) of the rounded 32-bit value - the least
significant byte is dropped - laid out most-significant-first for the
MSB target and least-significant-first for the LSB target. -/
theorem convertSample_int24_high_bytes (codec : FloatCodec) (dest : List Nat) (x : ℚ)
    (hdest : dest.length = 3) :
    ConvertSample codec dest .STInt24MSB (.f32 x) =
      [byteAt (ConvertRealToInt 32 x) 3, byteAt (ConvertRealToInt 32 x) 2,
        byteAt (ConvertRealToInt 32 x) 1] ∧
    ConvertSample codec dest .STInt24LSB (.f32 x) =
      [byteAt (ConvertRealToInt 32 x) 1, byteAt (ConvertRealToInt 32 x) 2,
        byteAt (ConvertRealToInt 32 x) 3] ∧
    ConvertSample codec dest .STInt24MSB (.f64 x) =
      [byteAt (ConvertRealToInt 32 x) 3, byteAt (ConvertRealToInt 32 x) 2,
        byteAt (ConvertRealToInt 32 x) 1] ∧
    ConvertSample codec dest .STInt24LSB (.f64 x) =
      [byteAt (ConvertRealToInt 32 x) 1, byteAt (ConvertRealToInt 32 x) 2,
        byteAt (ConvertRealToInt 32 x) 3] := by
    have hdrop : dest.drop 3 = [] := by
      rw [List.drop_eq_nil_iff]
      omega
    refine ⟨?_, ?_, ?_, ?_⟩ <;>
      simp [ConvertSample, convertReal, writeBytes, hdrop]

theorem c6_witness :
    ([(0 : Nat), 0, 0].length = 3) ∧
    ConvertSample codec0 [0, 0, 0] .STInt24MSB (.f32 0) =
      [byteAt (ConvertRealToInt 32 0) 3, byteAt (ConvertRealToInt 32 0) 2,
        byteAt (ConvertRealToInt 32 0) 1] :=
  ⟨rfl, (convertSample_int24_high_bytes codec0 [0, 0, 0] 0 rfl).1⟩

/-! ### Concrete negotiation fixtures -/

/-- A 48000 Hz, 2-channel, float32 host format request. -/
def fmt48 : AEFormat := ⟨48000, 2, .FLOAT, 0, 0⟩

/-- A driver that answers every query successfully: 2 output channels,
preferred buffer size 1024 frames, native type 16-bit signed MSB-first. -/
def drv16 : Driver :=
  ⟨true, true, true, true, true, true, 2, true, 1024, true, .STInt16MSB, true, true, true⟩

/-- Like drv16 but the buffer-size query fails (after the channel query
already succeeded). -/
def drvFailBuf : Driver :=
  ⟨true, true, true, true, true, true, 2, false, 1024, true, .STInt16MSB, true, true, true⟩

/-! ### Claim C3 -/

/-- Claim C3 (code bug): for a successfully negotiated 48000 Hz session
with a 16-bit native type, the sink stores m_planeBytesPerSec =
sampleRate * GetASIOSampleSizeInBits(type) = 48000 * 16 = 768000 - the
sample rate times the BIT width, not times the native sample byte size
(48000 * 2 = 96000 as the claim and the field name require). The queue
capacity and GetDelay/GetCacheTotal all divide byte counts by this
bits-per-second figure, so GetCacheTotal reports 3 (seconds) for a
2,304,000-byte-per-plane queue that actually holds 24 seconds at the true
96000 bytes/second. -/
theorem planeBytesPerSec_uses_bits :
    (InitializeSink initialState fmt48 drv16).1 = true ∧
    (InitializeSink initialState fmt48 drv16).2.1.planeBytesPerSec =
      48000 * GetASIOSampleSizeInBits .STInt16MSB ∧
    (InitializeSink initialState fmt48 drv16).2.1.planeBytesPerSec = 768000 ∧
    48000 * sampleBytes .STInt16MSB = 96000 ∧
    (InitializeSink initialState fmt48 drv16).2.1.planeBytesPerSec ≠
      48000 * sampleBytes .STInt16MSB ∧
    (InitializeSink initialState fmt48 drv16).2.1.planeBuffer.maxSize = 2304000 ∧
    GetCacheTotal (InitializeSink initialState fmt48 drv16).2.1 = 3 := by
  have hmax : (InitializeSink initialState fmt48 drv16).2.1.planeBuffer.maxSize = 2304000 := by
    decide
  have hpbs : (InitializeSink initialState fmt48 drv16).2.1.planeBytesPerSec = 768000 := by
    decide
  refine ⟨by decide, by decide, hpbs, by decide, by decide, hmax, ?_⟩
  unfold GetCacheTotal StagingQueue.getMaxSize
  rw [hmax, hpbs]
  norm_num

/-! ### Claim C4 -/

/-- Claim C4 counterexample: when the buffer-size query fails, Initialize
returns failure but has already committed m_planeCount = 2 from the
earlier channel query (the fresh sink had plane count 0), so the session
state is NOT left as it was before the call. -/
theorem negotiationFail_commits_planeCount :
    (InitializeSink initialState fmt48 drvFailBuf).1 = false ∧
    (InitializeSink initialState fmt48 drvFailBuf).2.1.planeCount = 2 ∧
    initialState.planeCount = 0 ∧
    (InitializeSink initialState fmt48 drvFailBuf).2.1 ≠ initialState := by
  refine ⟨by decide, by decide, by decide, by decide⟩

/-- Claim C4 (amended): whenever Initialize fails for one of the listed
reasons (sample rate unsupported, channel query failure, buffer-size
query failure, channel-info query failure, queue allocation failure), it
returns failure and never marks the session ready: m_initialized stays
false, so the streaming entry points keep treating the sink as
uninitialized; however the fields assigned before the failing step (plane
count, buffer size, sample type and size, callback target, frame
geometry) may retain partially committed values. -/
theorem negotiationFail_not_ready (st : SinkState) (format : AEFormat) (drv : Driver)
    (h0 : st.initialized = false)
    (hfail : drv.canSampleRateOk = false ∨ drv.getChannelsOk = false ∨
      drv.getBufferSizeOk = false ∨ drv.getChannelInfoOk = false ∨
      drv.queueCreateOk = false) :
    (InitializeSink st format drv).1 = false ∧
    (InitializeSink st format drv).2.1.initialized = false := by
  unfold InitializeSink
  split_ifs with h1 h2 h3 h4 h5
  · exact absurd h1 (by rw [h0]; exact Bool.false_ne_true)
  · exact ⟨rfl, h0⟩
  · exact ⟨rfl, h0⟩
  · exact ⟨rfl, h0⟩
  · have := initFromRateCheck_fail st format drv hfail
    exact ⟨this.1, by rw [this.2, h0]⟩
  · have := initFromRateCheck_fail st format drv hfail
    exact ⟨this.1, by rw [this.2, h0]⟩

theorem c4_witness :
    initialState.initialized = false ∧ drvFailBuf.getBufferSizeOk = false ∧
    (InitializeSink initialState fmt48 drvFailBuf).1 = false ∧
    (InitializeSink initialState fmt48 drvFailBuf).2.1.initialized = false := by
  refine ⟨rfl, rfl, ?_, ?_⟩
  · exact (negotiationFail_not_ready initialState fmt48 drvFailBuf rfl
      (Or.inr (Or.inr (Or.inl rfl)))).1
  · exact (negotiationFail_not_ready initialState fmt48 drvFailBuf rfl
      (Or.inr (Or.inr (Or.inl rfl)))).2

/-! ### Claim C5 -/

/-- 640 stereo float32 frames (1280 interleaved samples). -/
def dataC5 : List HostSample := List.replicate 1280 (.f32 0)

/-- Claim C5: negotiation derives host frame size = channel count * host
sample byte size and frame count per quantum = sampleRate / 75,
additionally divided by 8 at or above the DSD threshold; in particular
48000 Hz / 2 channels / float32 against a 16-bit signed MSB-first native
type yields frame size 8 bytes and frame count 640, and AddPackets of 640
such frames (queue space sufficient) accepts all 640 and writes exactly
640 * 2 = 1280 native bytes into each of the two planes - 2560 bytes in
total, split evenly. -/
theorem negotiation_geometry_end_to_end :
    (∀ (st : SinkState) (format : AEFormat) (drv : Driver),
      (InitializeSink st format drv).1 = true →
        (InitializeSink st format drv).2.2.frameSize =
          format.channelCount * (DataFormatToBits format.dataFormat / 8) ∧
        (InitializeSink st format drv).2.2.frames =
          format.sampleRate /
            (if DSD_MIN_SAMPLERATE ≤ format.sampleRate then 8 else 1) / 75) ∧
    (InitializeSink initialState fmt48 drv16).1 = true ∧
    (InitializeSink initialState fmt48 drv16).2.2.frameSize = 8 ∧
    (InitializeSink initialState fmt48 drv16).2.2.frames = 640 ∧
    (AddPackets codec0 (InitializeSink initialState fmt48 drv16).2.1 dataC5 640 0).2 = 640 ∧
    List.map List.length
      ((AddPackets codec0 (InitializeSink initialState fmt48 drv16).2.1 dataC5 640 0).1.planeBuffer.planes) =
      [1280, 1280] := by
  constructor
  · intro st format drv h
    unfold InitializeSink at h ⊢
    split_ifs at h ⊢ <;>
      first
        | exact Bool.noConfusion h
        | (obtain ⟨hA, hB⟩ := initFromRateCheck_geometry st format drv h
           refine ⟨hA, ?_⟩
           rw [hB]
           split_ifs <;> first | rfl | contradiction)
  · set st1 := (InitializeSink initialState fmt48 drv16).2.1 with hst1
    have hinit : st1.initialized = true := by decide
    have hbal : Balanced st1.planeBuffer := by decide
    have hsz : st1.sampleSize = sampleBytes st1.sampleType := by decide
    obtain ⟨hr2, hmax, hlen, hall⟩ := addPackets_spec codec0 st1 dataC5 640 0 hinit hbal hsz
    have hr2' : (AddPackets codec0 st1 dataC5 640 0).2 = 640 := by
      rw [hr2]
      decide
    have hlen' : (AddPackets codec0 st1 dataC5 640 0).1.planeBuffer.planes.length = 2 := by
      rw [hlen]
      decide
    have hall' : ∀ p ∈ (AddPackets codec0 st1 dataC5 640 0).1.planeBuffer.planes,
        p.length = 1280 := by
      intro p hp
      have hthis := hall p hp
      have e1 : st1.planeBuffer.readSize = 0 := by decide
      have e2 : st1.sampleSize = 2 := by decide
      rw [hr2', e1, e2] at hthis
      simpa using hthis
    have hmap : (AddPackets codec0 st1 dataC5 640 0).1.planeBuffer.planes.map List.length =
        List.replicate 2 1280 := by
      apply List.eq_replicate.mpr
      refine ⟨by simp [hlen'], ?_⟩
      intro b hb
      simp only [List.mem_map] at hb
      obtain ⟨p, hp, rfl⟩ := hb
      exact hall' p hp
    refine ⟨by decide, by decide, by decide, hr2', ?_⟩
    rw [hmap]
    rfl

theorem c5_witness :
    (InitializeSink initialState fmt48 drv16).1 = true ∧
    (InitializeSink initialState fmt48 drv16).2.2.frameSize =
      fmt48.channelCount * (DataFormatToBits fmt48.dataFormat / 8) ∧
    (InitializeSink initialState fmt48 drv16).2.2.frames =
      fmt48.sampleRate / (if DSD_MIN_SAMPLERATE ≤ fmt48.sampleRate then 8 else 1) / 75 := by
  refine ⟨by decide, ?_, ?_⟩
  · exact (negotiation_geometry_end_to_end.1 initialState fmt48 drv16 (by decide)).1
  · exact (negotiation_geometry_end_to_end.1 initialState fmt48 drv16 (by decide)).2

/-! ### Claim C1 -/

/-- Claim C1: per callback invocation, if every plane's staging queue
holds at least bufferFrameCount * nativeSampleSize readable bytes, the
callback reads exactly that many bytes from each plane's queue in FIFO
order (the oldest bytes, which are then consumed) into that plane's
buffer half; otherwise it writes the silence pattern over the full buffer
half of every plane and leaves the queue untouched. The decision is
all-or-nothing across planes, and every emitted buffer half covers the
full bufferSize * sampleSize bytes - no plane is ever partially filled. -/
theorem bufferSwitch_all_or_nothing (st : SinkState) (hbal : Balanced st.planeBuffer)
    (hsz : st.sampleSize = sampleBytes st.sampleType) :
    ((∀ p ∈ st.planeBuffer.planes, st.bufferSize * st.sampleSize ≤ p.length) →
      (bufferSwitch st).2 =
        st.planeBuffer.planes.map (List.take (st.bufferSize * st.sampleSize)) ∧
      (bufferSwitch st).1.planeBuffer.planes =
        st.planeBuffer.planes.map (List.drop (st.bufferSize * st.sampleSize)) ∧
      ∀ out ∈ (bufferSwitch st).2, out.length = st.bufferSize * st.sampleSize) ∧
    ((∃ p ∈ st.planeBuffer.planes, p.length < st.bufferSize * st.sampleSize) →
      (bufferSwitch st).2 = st.planeBuffer.planes.map
        (fun _ => ZeroSamples st.sampleType st.sampleSize st.bufferSize) ∧
      (bufferSwitch st).1 = st ∧
      ∀ out ∈ (bufferSwitch st).2, out.length = st.bufferSize * st.sampleSize) := by
  constructor
  · intro hall
    by_cases hc : st.bufferSize * st.sampleSize ≤ st.planeBuffer.readSize
    · have hbs : bufferSwitch st =
          ({ st with planeBuffer := { st.planeBuffer with
              planes := st.planeBuffer.planes.map
                (List.drop (st.bufferSize * st.sampleSize)) } },
           st.planeBuffer.planes.map (List.take (st.bufferSize * st.sampleSize))) := by
        unfold bufferSwitch
        dsimp only
        rw [if_pos hc]
      rw [hbs]
      refine ⟨rfl, rfl, ?_⟩
      intro out hout
      simp only [List.mem_map] at hout
      obtain ⟨p, hp, rfl⟩ := hout
      rw [List.length_take]
      have h1 := hbal p hp
      omega
    · cases hq : st.planeBuffer.planes with
      | cons p ps =>
        exfalso
        apply hc
        have hp : p ∈ st.planeBuffer.planes := by
          rw [hq]
          exact List.mem_cons_self p ps
        have h1 := hall p hp
        have h2 : st.planeBuffer.readSize = p.length := by
          unfold StagingQueue.readSize
          rw [hq]
          rfl
        omega
      | nil =>
        have hbs : bufferSwitch st =
            (st, st.planeBuffer.planes.map
              (fun _ => ZeroSamples st.sampleType st.sampleSize st.bufferSize)) := by
          unfold bufferSwitch
          dsimp only
          rw [if_neg hc]
        rw [hbs, hq]
        exact ⟨rfl, rfl, by simp⟩
  · rintro ⟨p, hp, hlt⟩
    have h1 := hbal p hp
    have hc : ¬ st.bufferSize * st.sampleSize ≤ st.planeBuffer.readSize := by omega
    have hbs : bufferSwitch st =
        (st, st.planeBuffer.planes.map
          (fun _ => ZeroSamples st.sampleType st.sampleSize st.bufferSize)) := by
      unfold bufferSwitch
      dsimp only
      rw [if_neg hc]
    rw [hbs]
    refine ⟨rfl, rfl, ?_⟩
    intro out hout
    simp only [List.mem_map] at hout
    obtain ⟨p0, hp0, rfl⟩ := hout
    exact zeroSamples_length st.sampleType st.sampleSize st.bufferSize hsz

/-- An initialized two-plane 16-bit session fixture used by witnesses:
each plane holds 4 readable bytes, one buffer half is
bufferSize * sampleSize = 4 bytes. -/
def stW : SinkState where
  initialized := true
  running := true
  planeCount := 2
  sampleType := .STInt16LSB
  sampleSize := 2
  bufferSize := 2
  frameSize := 8
  frameCount := 640
  planeBytesPerSec := 768000
  sThisSet := true
  format := ⟨48000, 2, .FLOAT, 8, 640⟩
  planePad := []
  planeBuffer := ⟨16, [[1, 2, 3, 4], [5, 6, 7, 8]]⟩

theorem c1_witness :
    Balanced stW.planeBuffer ∧ stW.sampleSize = sampleBytes stW.sampleType ∧
    (∀ p ∈ stW.planeBuffer.planes, stW.bufferSize * stW.sampleSize ≤ p.length) ∧
    (bufferSwitch stW).2 =
      stW.planeBuffer.planes.map (List.take (stW.bufferSize * stW.sampleSize)) ∧
    (bufferSwitch stW).1.planeBuffer.planes =
      stW.planeBuffer.planes.map (List.drop (stW.bufferSize * stW.sampleSize)) := by
  refine ⟨by decide, by decide, by decide, ?_, ?_⟩
  · exact ((bufferSwitch_all_or_nothing stW (by decide) (by decide)).1 (by decide)).1
  · exact ((bufferSwitch_all_or_nothing stW (by decide) (by decide)).1 (by decide)).2.1

/-! ### Claim C8 -/

/-- An initialized one-plane session holding a single readable byte,
fewer than one buffer half (bufferSize * sampleSize = 4 bytes). -/
def stC8 : SinkState where
  initialized := true
  running := true
  planeCount := 1
  sampleType := .STInt16LSB
  sampleSize := 2
  bufferSize := 2
  frameSize := 8
  frameCount := 640
  planeBytesPerSec := 768000
  sThisSet := true
  format := ⟨48000, 2, .FLOAT, 8, 640⟩
  planePad := []
  planeBuffer := ⟨16, [[9]]⟩

/-- Claim C8 counterexample: on a session whose queue holds one readable
byte (fewer than one buffer half), the callback substitutes silence and
leaves the queue untouched, so GetDelay is unchanged - and nonzero -
across the callback instead of strictly decreasing; the residual byte is
never drained, so the delay never reaches zero. -/
theorem getDelay_not_strictly_decreasing :
    (bufferSwitch stC8).1 = stC8 ∧
    GetDelay stC8 ≠ 0 ∧
    GetDelay (bufferSwitch stC8).1 = GetDelay stC8 ∧
    ¬ GetDelay (bufferSwitch stC8).1 < GetDelay stC8 := by
  have hb : (bufferSwitch stC8).1 = stC8 := by decide
  have hne : GetDelay stC8 ≠ 0 := by
    unfold GetDelay
    have hi : stC8.initialized = true := rfl
    rw [if_pos hi]
    have e1 : stC8.planeBuffer.readSize = 1 := rfl
    have e2 : stC8.planeBytesPerSec = 768000 := rfl
    rw [e1, e2]
    norm_num
  refine ⟨hb, hne, by rw [hb], by rw [hb]; exact lt_irrefl _⟩

/-- Claim C8 (amended): between two consecutive callback invocations with
no intervening addPackets, GetDelay never increases; it strictly
decreases exactly while at least one full buffer half
(bufferSize * sampleSize > 0 bytes) is readable; once fewer bytes than
one buffer half remain, silence is substituted and the delay stays
constant - it is zero exactly when the readable byte count is zero. -/
theorem getDelay_callback_behavior (st : SinkState) (hinit : st.initialized = true)
    (hpbs : 0 < st.planeBytesPerSec) :
    GetDelay (bufferSwitch st).1 ≤ GetDelay st ∧
    (0 < st.bufferSize * st.sampleSize →
      st.bufferSize * st.sampleSize ≤ st.planeBuffer.readSize →
      GetDelay (bufferSwitch st).1 < GetDelay st) ∧
    (st.planeBuffer.readSize < st.bufferSize * st.sampleSize →
      GetDelay (bufferSwitch st).1 = GetDelay st) ∧
    (GetDelay (bufferSwitch st).1 = 0 ↔ (bufferSwitch st).1.planeBuffer.readSize = 0) := by
  obtain ⟨hf1, _, _, _, hf5, _, _, _⟩ := bufferSwitch_fields st
  have hrs := bufferSwitch_readSize st
  have hq : (0 : ℚ) < (st.planeBytesPerSec : ℚ) := by exact_mod_cast hpbs
  have hd1 : GetDelay st =
      (st.planeBuffer.readSize : ℚ) / (st.planeBytesPerSec : ℚ) := by
    unfold GetDelay
    rw [if_pos hinit]
  have hd2 : GetDelay (bufferSwitch st).1 =
      ((bufferSwitch st).1.planeBuffer.readSize : ℚ) / (st.planeBytesPerSec : ℚ) := by
    unfold GetDelay
    rw [if_pos (by rw [hf1]; exact hinit), hf5]
  refine ⟨?_, ?_, ?_, ?_⟩
  · rw [hd1, hd2, hrs]
    split_ifs with h
    · exact (div_le_div_right hq).mpr (by exact_mod_cast Nat.sub_le _ _)
    · exact le_refl _
  · intro hn hle
    rw [hd1, hd2, hrs, if_pos hle]
    rw [div_lt_div_right hq]
    exact_mod_cast
      (by omega : st.planeBuffer.readSize - st.bufferSize * st.sampleSize <
        st.planeBuffer.readSize)
  · intro hlt
    rw [hd1, hd2, hrs, if_neg (by omega)]
  · rw [hd2, div_eq_zero_iff]
    simp [hq.ne', Nat.cast_eq_zero]

theorem c8_witness :
    stW.initialized = true ∧ 0 < stW.planeBytesPerSec ∧
    0 < stW.bufferSize * stW.sampleSize ∧
    stW.bufferSize * stW.sampleSize ≤ stW.planeBuffer.readSize ∧
    GetDelay (bufferSwitch stW).1 < GetDelay stW := by
  refine ⟨rfl, by decide, by decide, by decide, ?_⟩
  exact (getDelay_callback_behavior stW rfl (by decide)).2.1 (by decide) (by decide)

/-! ### Claim C10 -/

/-- Claim C10: every AddPackets call on an initialized session appends
exactly framesConsumed * nativeSampleSize bytes to every plane of the
staging queue - planes beyond the host channel count receive the silence
fill instead of converted audio, but the same byte count - and any
sequence of AddPackets and callback operations keeps all planes at equal
readable byte counts (the Balanced invariant). -/
theorem addPackets_uniform_planes (codec : FloatCodec) (st : SinkState)
    (hbal : Balanced st.planeBuffer) (hsz : st.sampleSize = sampleBytes st.sampleType) :
    (∀ data frames offset, st.initialized = true →
      ∀ p ∈ (AddPackets codec st data frames offset).1.planeBuffer.planes,
        p.length = st.planeBuffer.readSize +
          (AddPackets codec st data frames offset).2 * st.sampleSize) ∧
    ∀ ops, Balanced (runOps codec st ops).planeBuffer := by
  constructor
  · intro data frames offset hinit
    exact (addPackets_spec codec st data frames offset hinit hbal hsz).2.2.2
  · intro ops
    exact runOps_inv codec ops st hbal hsz

theorem c10_witness :
    Balanced stW.planeBuffer ∧ stW.sampleSize = sampleBytes stW.sampleType ∧
    Balanced (runOps codec0 stW [.callback, .add [] 0 0]).planeBuffer := by
  refine ⟨by decide, by decide, ?_⟩
  exact (addPackets_uniform_planes codec0 stW (by decide) (by decide)).2
    [.callback, .add [] 0 0]

end AESinkAsio
